import Mathlib

/-!
Verification development for the `browsy_helpers` logger
(`src/logger.rs`).  Strings are modelled as `List Char`; the Rust
functions are embedded as executable Lean definitions and the spec's
testable properties are settled as theorems about those definitions.
-/

namespace Browsy

/-! ### Embedding of `String::replace` (Rust standard library)

`builder.replace(from, to)` replaces every non-overlapping occurrence of
`from` in `builder` with `to`, scanning left to right.  `replaceAux`
performs the scan; its `Nat` argument counts characters of an already
matched occurrence that still have to be consumed (they were replaced by
`rep` already, so they are dropped from the output). -/

def replaceAux (pat rep : List Char) : Nat → List Char → List Char
  | _, [] => []
  | n + 1, _ :: xs => replaceAux pat rep n xs
  | 0, x :: xs =>
    if pat.isPrefixOf (x :: xs) then
      rep ++ replaceAux pat rep (pat.length - 1) xs
    else
      x :: replaceAux pat rep 0 xs

/-- Rust `"abc".replace("", to)` inserts `to` at every char boundary;
`interleave` builds the tail `a to b to c to` of that result. -/
def interleave (rep : List Char) : List Char → List Char
  | [] => []
  | c :: cs => c :: (rep ++ interleave rep cs)

/-- Embedding of Rust `str::replace`: replace every non-overlapping
occurrence of `pat` in `s` with `rep`, scanning left to right. -/
def rustReplace (s pat rep : List Char) : List Char :=
  match pat with
  | [] => rep ++ interleave rep s
  | _ :: _ => replaceAux pat rep 0 s

/-- The token literal built by `format!("#${}#", pair.0)` in
`template_replace` (src/logger.rs:117): `#$<index>#`. -/
def token (i : Int) : List Char :=
  '#' :: '$' :: ((toString i).toList ++ ['#'])

/-- Embedding of `InfoLogger::template_replace` (src/logger.rs:110-122):
starting from the template, each `(index, value)` pair in order replaces
every occurrence of its token in the current buffer with the
(pre-stringified) value. -/
def template_replace (templ : List Char) (pairs : List (Int × List Char)) : List Char :=
  pairs.foldl (fun builder pair => rustReplace builder (token pair.fst) pair.snd) templ

/-- Boolean occurrence test: `occursIn pat s` holds iff `pat` occurs as a
contiguous substring of `s`. -/
def occursIn (pat : List Char) : List Char → Bool
  | [] => pat.isEmpty
  | x :: xs => pat.isPrefixOf (x :: xs) || occursIn pat xs

/-! ### Spec-side formalisation of the Template Engine

The spec describes each pair's action as: replace every occurrence of the
token, left to right, against the mutating buffer.  The standard
independent rendering of "replace every occurrence" used here is: split
the buffer at the non-overlapping occurrences of the token and re-join
the fragments with the value. -/

/-- Left-to-right non-overlapping split on `pat`; `skip` and `cur` play
the same roles as in `replaceAux` (`cur` holds the current fragment,
reversed). -/
def splitAux (pat : List Char) : Nat → List Char → List Char → List (List Char)
  | _, cur, [] => [cur.reverse]
  | n + 1, cur, _ :: xs => splitAux pat n cur xs
  | 0, cur, x :: xs =>
    if pat.isPrefixOf (x :: xs) then
      cur.reverse :: splitAux pat (pat.length - 1) [] xs
    else
      splitAux pat 0 (x :: cur) xs

/-- Fragments of `s` between the left-to-right non-overlapping
occurrences of `pat`. -/
def splitSeq (pat s : List Char) : List (List Char) :=
  splitAux pat 0 [] s

/-- Join a list of fragments, inserting `sep` between neighbours. -/
def joinWith (sep : List Char) : List (List Char) → List Char
  | [] => []
  | [a] => a
  | a :: b :: rest => a ++ sep ++ joinWith sep (b :: rest)

/-- Written from the spec's words (spec.md §4.1): the substitute is the
left fold over the pairs that, at each step, replaces every occurrence of
the pair's token in the current buffer (split at the token, re-join with
the stringified value). -/
def substituteSpec (templ : List Char) (pairs : List (Int × List Char)) : List Char :=
  pairs.foldl (fun builder pair => joinWith pair.snd (splitSeq (token pair.fst) builder)) templ

/-! ### Styling model (the `colored` crate, an external dependency)

`statement`/`warn`/`success`/`fail` style title and message with the
`colored` crate.  A `ColoredString` carries the input text, optional
ANSI foreground/background colour codes and style flags; displaying a
non-plain one wraps the input as `ESC [ codes m input ESC [ 0 m`, where
`codes` are the style codes, then the foreground, then the background,
joined by `;`.  The crate's runtime switch that suppresses colours when
stdout is not a terminal is modelled as always-on colouring. -/

structure ColoredString where
  input : List Char
  fg : Option Nat
  bg : Option Nat
  isBold : Bool
  isItalic : Bool
  isUnderline : Bool
  deriving DecidableEq

/-- A plain `&str` lifted into a `ColoredString` (no colours, no styles). -/
def mkColored (s : List Char) : ColoredString :=
  ⟨s, none, none, false, false, false⟩

def bold (c : ColoredString) : ColoredString := { c with isBold := true }

def italic (c : ColoredString) : ColoredString := { c with isItalic := true }

def underline (c : ColoredString) : ColoredString := { c with isUnderline := true }

def white (c : ColoredString) : ColoredString := { c with fg := some 37 }

def yellow (c : ColoredString) : ColoredString := { c with fg := some 33 }

def bright_green (c : ColoredString) : ColoredString := { c with fg := some 92 }

def on_blue (c : ColoredString) : ColoredString := { c with bg := some 44 }

def on_red (c : ColoredString) : ColoredString := { c with bg := some 41 }

def on_green (c : ColoredString) : ColoredString := { c with bg := some 42 }

def on_bright_yellow (c : ColoredString) : ColoredString := { c with bg := some 103 }

/-- Decimal digits of an ANSI code. -/
def natChars (n : Nat) : List Char := (toString n).toList

/-- The `;`-separated code fragments of an escape header: style codes in
the crate's fixed order (bold, italic, underline), then foreground, then
background. -/
def styleCodes (c : ColoredString) : List (List Char) :=
  (if c.isBold then [['1']] else []) ++
    (if c.isItalic then [['3']] else []) ++
      (if c.isUnderline then [['4']] else []) ++
        (match c.fg with | some n => [natChars n] | none => []) ++
          (match c.bg with | some n => [natChars n] | none => [])

/-- The ASCII escape character `\x1b`. -/
def escChar : Char := Char.ofNat 27

/-- The escape header `ESC [ codes m` of a non-plain `ColoredString`. -/
def escOpen (c : ColoredString) : List Char :=
  escChar :: '[' :: (joinWith [';'] (styleCodes c) ++ ['m'])

/-- The closing reset sequence `ESC [ 0 m`. -/
def ansiReset : List Char := [escChar, '[', '0', 'm']

/-- Display of a `ColoredString`: plain input when nothing was applied,
otherwise the escape-wrapped input. -/
def coloredDisplay (c : ColoredString) : List Char :=
  if c.fg = none ∧ c.bg = none ∧ c.isBold = false ∧ c.isItalic = false ∧ c.isUnderline = false then
    c.input
  else
    escOpen c ++ (c.input ++ ansiReset)

/-! ### Padding capability

Modelled from the spec: the padding utility (`crate::text_utills`, whose
source is not under src/) provides `pad(text, fill_char, count)`, used to
"add visual breathing room" around a string; it is a pure string
transformation adding `count` copies of the fill on each side, and `p()`
is the one-space shorthand the renderers use. -/

def pad (s fill : List Char) (count : Nat) : List Char :=
  (List.replicate count fill).flatten ++ s ++ (List.replicate count fill).flatten

/-- Modelled from the spec: `p()` pads with a single space on each side. -/
def p (s : List Char) : List Char := pad s [' '] 1

/-! ### The `InfoLogger` record and its operations (src/logger.rs) -/

structure InfoLogger where
  tittle : List Char
  message : List Char
  log : List Char
  deriving DecidableEq

/-- Embedding of `InfoLogger::new_default` (src/logger.rs:75-81). -/
def new_default : InfoLogger := ⟨[], [], []⟩

/-- Embedding of `InfoLogger::new` (src/logger.rs:83-89): `log` starts
out at its `Default` (the empty string). -/
def new (tittle message : List Char) : InfoLogger := ⟨tittle, message, []⟩

/-- Embedding of `InfoLogger::LOG_TEMPLATE` (src/logger.rs:73). -/
def LOG_TEMPLATE : List Char := "#$1# #$2#".toList

/-- Embedding of `InfoLogger::restate_log` (src/logger.rs:136-140). -/
def restate_log (l : InfoLogger) (tittle message : List Char) : InfoLogger :=
  { l with tittle := tittle, message := message }

/-- Embedding of `InfoLogger::statement` (src/logger.rs:158-167). -/
def statement (l : InfoLogger) : InfoLogger :=
  { l with log := (template_replace LOG_TEMPLATE
      [(1, coloredDisplay (bold (on_blue (mkColored (p l.tittle))))),
       (2, coloredDisplay (italic (white (mkColored (p l.message)))))]) }

/-- Embedding of `InfoLogger::warn` (src/logger.rs:185-202). -/
def warn (l : InfoLogger) : InfoLogger :=
  { l with log := (template_replace LOG_TEMPLATE
      [(1, coloredDisplay (bold (on_bright_yellow (white (mkColored (p l.tittle)))))),
       (2, coloredDisplay (bold (yellow (mkColored (p l.message)))))]) }

/-- Embedding of `InfoLogger::success` (src/logger.rs:220-229). -/
def success (l : InfoLogger) : InfoLogger :=
  { l with log := (template_replace LOG_TEMPLATE
      [(1, coloredDisplay (bold (on_green (mkColored (pad l.tittle [' '] 1))))),
       (2, coloredDisplay (bright_green (underline (mkColored (pad l.message [' '] 1)))))]) }

/-- Embedding of `InfoLogger::fail` (src/logger.rs:247-256). -/
def fail (l : InfoLogger) : InfoLogger :=
  { l with log := (template_replace LOG_TEMPLATE
      [(1, coloredDisplay (bold (white (on_red (mkColored (p l.tittle)))))),
       (2, coloredDisplay (underline (bold (yellow (mkColored (p l.message))))))]) }

/-- Embedding of `InfoLogger::log` (src/logger.rs:270-273): `println!`
is modelled by returning, next to the untouched record, the text written
to standard output (the log followed by the line terminator). -/
def log (l : InfoLogger) : InfoLogger × List Char :=
  (l, l.log ++ ['\n'])

/-- Embedding of `InfoLogger::clone_log` (src/logger.rs:276-278). -/
def clone_log (l : InfoLogger) : List Char := l.log

/-! ### Named stylings of the four severities

Each definition is the exact styled-title / styled-message expression the
corresponding renderer feeds into the template engine. -/

def statement_styled_title (t : List Char) : List Char :=
  coloredDisplay (bold (on_blue (mkColored (p t))))

def statement_styled_message (m : List Char) : List Char :=
  coloredDisplay (italic (white (mkColored (p m))))

def warn_styled_title (t : List Char) : List Char :=
  coloredDisplay (bold (on_bright_yellow (white (mkColored (p t)))))

def warn_styled_message (m : List Char) : List Char :=
  coloredDisplay (bold (yellow (mkColored (p m))))

def success_styled_title (t : List Char) : List Char :=
  coloredDisplay (bold (on_green (mkColored (pad t [' '] 1))))

def success_styled_message (m : List Char) : List Char :=
  coloredDisplay (bright_green (underline (mkColored (pad m [' '] 1))))

def fail_styled_title (t : List Char) : List Char :=
  coloredDisplay (bold (white (on_red (mkColored (p t)))))

def fail_styled_message (m : List Char) : List Char :=
  coloredDisplay (underline (bold (yellow (mkColored (p m)))))

/-! ### Concrete escape headers of the four severities -/

def stmtOpen : List Char := [escChar, '[', '1', ';', '4', '4', 'm']

def warnOpen : List Char := [escChar, '[', '1', ';', '3', '7', ';', '1', '0', '3', 'm']

def succOpen : List Char := [escChar, '[', '1', ';', '4', '2', 'm']

def failOpen : List Char := [escChar, '[', '1', ';', '3', '7', ';', '4', '1', 'm']

end Browsy

namespace Browsy

/-! ### Helper lemmas about the scanner -/

theorem replaceAux_nil (pat rep : List Char) (n : Nat) : replaceAux pat rep n [] = [] := by
  cases n <;> rfl

theorem replaceAux_succ_cons (pat rep : List Char) (n : Nat) (x : Char) (xs : List Char) :
    replaceAux pat rep (n + 1) (x :: xs) = replaceAux pat rep n xs := rfl

theorem replaceAux_zero_cons (pat rep : List Char) (x : Char) (xs : List Char) :
    replaceAux pat rep 0 (x :: xs) =
      if pat.isPrefixOf (x :: xs) then
        rep ++ replaceAux pat rep (pat.length - 1) xs
      else
        x :: replaceAux pat rep 0 xs := rfl

theorem replaceAux_skip (pat rep : List Char) :
    ∀ (s : List Char) (n : Nat), replaceAux pat rep n s = replaceAux pat rep 0 (s.drop n) := by
  intro s
  induction s with
  | nil => intro n; cases n <;> rfl
  | cons x xs ih =>
    intro n
    cases n with
    | zero => rfl
    | succ m => rw [replaceAux_succ_cons, ih, List.drop_succ_cons]

theorem isPrefixOf_eq_iff (pat : List Char) :
    ∀ s : List Char, pat.isPrefixOf s = true ↔ ∃ t, pat ++ t = s := by
  induction pat with
  | nil => intro s; simp [List.isPrefixOf]
  | cons a as ih =>
    intro s
    cases s with
    | nil => simp [List.isPrefixOf]
    | cons b bs =>
      rw [List.isPrefixOf_cons₂]
      constructor
      · intro h
        have h1 : a = b := by
          have := (Bool.and_eq_true _ _).mp h
          exact eq_of_beq this.1
        have h2 := (ih bs).mp ((Bool.and_eq_true _ _).mp h).2
        obtain ⟨t, ht⟩ := h2
        exact ⟨t, by simp [h1, ht]⟩
      · rintro ⟨t, ht⟩
        have hb : b = a := by
          have := congrArg (fun l => l.head?) ht.symm
          simpa using this
        have hbs : as ++ t = bs := by
          have := congrArg (fun l => l.tail) ht
          simpa using this
        have : as.isPrefixOf bs = true := (ih bs).mpr ⟨t, hbs⟩
        simp [this, hb]

theorem isPrefixOf_append_self (pat s : List Char) : pat.isPrefixOf (pat ++ s) = true :=
  (isPrefixOf_eq_iff pat (pat ++ s)).mpr ⟨s, rfl⟩

theorem occursIn_nil (pat : List Char) : occursIn pat [] = pat.isEmpty := rfl

theorem occursIn_cons (pat : List Char) (x : Char) (xs : List Char) :
    occursIn pat (x :: xs) = (pat.isPrefixOf (x :: xs) || occursIn pat xs) := rfl

/-- Sanity check for the occurrence test: it agrees with the substring
characterisation. -/
theorem occursIn_iff (pat : List Char) :
    ∀ s : List Char, occursIn pat s = true ↔ ∃ a b, s = a ++ (pat ++ b) := by
  intro s
  induction s with
  | nil =>
    rw [occursIn_nil]
    constructor
    · intro h
      have : pat = [] := by
        cases pat with
        | nil => rfl
        | cons c cs => simp [List.isEmpty] at h
      exact ⟨[], [], by simp [this]⟩
    · rintro ⟨a, b, hab⟩
      have ha : a = [] := by
        cases a with
        | nil => rfl
        | cons y ys => simp at hab
      subst ha
      have hp : pat = [] := by
        cases pat with
        | nil => rfl
        | cons y ys => simp at hab
      simp [hp, List.isEmpty]
  | cons x xs ih =>
    rw [occursIn_cons]
    constructor
    · intro h
      rcases (Bool.or_eq_true _ _).mp h with h1 | h2
      · obtain ⟨t, ht⟩ := (isPrefixOf_eq_iff pat (x :: xs)).mp h1
        exact ⟨[], t, by simp [ht]⟩
      · obtain ⟨a, b, hab⟩ := ih.mp h2
        exact ⟨x :: a, b, by simp [hab]⟩
    · rintro ⟨a, b, hab⟩
      cases a with
      | nil =>
        have : pat.isPrefixOf (x :: xs) = true :=
          (isPrefixOf_eq_iff pat (x :: xs)).mpr ⟨b, by simpa using hab.symm⟩
        simp [this]
      | cons y ys =>
        have hx : y = x := by
          have := congrArg (fun l => l.head?) hab
          simpa using this.symm
        have hxs : xs = ys ++ (pat ++ b) := by
          have := congrArg (fun l => l.tail) hab
          simpa using this
        have : occursIn pat xs = true := ih.mpr ⟨ys, b, hxs⟩
        simp [this]

theorem replaceAux_not_occurs (c : Char) (pt rep : List Char) :
    ∀ s : List Char, occursIn (c :: pt) s = false → replaceAux (c :: pt) rep 0 s = s := by
  intro s
  induction s with
  | nil => intro _; rfl
  | cons x xs ih =>
    intro h
    rw [occursIn_cons] at h
    have h1 : (c :: pt).isPrefixOf (x :: xs) = false := by
      cases hb : (c :: pt).isPrefixOf (x :: xs) <;> simp [hb] at h ⊢
    have h2 : occursIn (c :: pt) xs = false := by
      cases hb : occursIn (c :: pt) xs <;> simp [hb] at h ⊢
    rw [replaceAux_zero_cons, h1]
    simp [ih h2]

theorem replaceAux_match (c : Char) (pt rep : List Char) (x : Char) (xs : List Char)
    (h : (c :: pt).isPrefixOf (x :: xs) = true) :
    replaceAux (c :: pt) rep 0 (x :: xs) =
      rep ++ replaceAux (c :: pt) rep 0 ((x :: xs).drop (c :: pt).length) := by
  rw [replaceAux_zero_cons, h, if_pos rfl]
  simp only [List.length_cons, Nat.add_sub_cancel, List.drop_succ_cons]
  rw [replaceAux_skip]

theorem replaceAux_append_self (c : Char) (pt rep s : List Char) :
    replaceAux (c :: pt) rep 0 ((c :: pt) ++ s) = rep ++ replaceAux (c :: pt) rep 0 s := by
  have hp : (c :: pt).isPrefixOf (c :: (pt ++ s)) = true := by
    have := isPrefixOf_append_self (c :: pt) s
    rwa [List.cons_append] at this
  rw [List.cons_append, replaceAux_match c pt rep c (pt ++ s) hp]
  simp [List.drop_succ_cons, List.drop_left]

theorem replaceAux_no_head (c : Char) (pt rep : List Char) :
    ∀ (pre s : List Char), c ∉ pre →
      replaceAux (c :: pt) rep 0 (pre ++ s) = pre ++ replaceAux (c :: pt) rep 0 s := by
  intro pre
  induction pre with
  | nil => intro s _; rfl
  | cons y ys ih =>
    intro s hmem
    have hy : ¬ c = y := fun hc => hmem (by simp [hc])
    have hys : c ∉ ys := fun hc => hmem (by simp [hc])
    have hpre : (c :: pt).isPrefixOf (y :: (ys ++ s)) = false := by
      rw [List.isPrefixOf_cons₂]
      simp [hy]
    rw [List.cons_append, replaceAux_zero_cons, hpre]
    simp [ih s hys]

end Browsy

namespace Browsy

/-! ### Helper lemmas about the splitter and joiner -/

theorem splitAux_nil (pat : List Char) (n : Nat) (cur : List Char) :
    splitAux pat n cur [] = [cur.reverse] := by
  cases n <;> rfl

theorem splitAux_succ_cons (pat : List Char) (n : Nat) (cur : List Char) (x : Char)
    (xs : List Char) : splitAux pat (n + 1) cur (x :: xs) = splitAux pat n cur xs := rfl

theorem splitAux_zero_cons (pat cur : List Char) (x : Char) (xs : List Char) :
    splitAux pat 0 cur (x :: xs) =
      if pat.isPrefixOf (x :: xs) then
        cur.reverse :: splitAux pat (pat.length - 1) [] xs
      else
        splitAux pat 0 (x :: cur) xs := rfl

theorem splitAux_skip (pat : List Char) :
    ∀ (s : List Char) (n : Nat) (cur : List Char),
      splitAux pat n cur s = splitAux pat 0 cur (s.drop n) := by
  intro s
  induction s with
  | nil => intro n cur; cases n <;> rfl
  | cons x xs ih =>
    intro n cur
    cases n with
    | zero => rfl
    | succ m => rw [splitAux_succ_cons, ih, List.drop_succ_cons]

theorem splitAux_ne_nil (pat : List Char) :
    ∀ (s : List Char) (n : Nat) (cur : List Char), splitAux pat n cur s ≠ [] := by
  intro s
  induction s with
  | nil => intro n cur; rw [splitAux_nil]; simp
  | cons x xs ih =>
    intro n cur
    cases n with
    | succ m => rw [splitAux_succ_cons]; exact ih m cur
    | zero =>
      rw [splitAux_zero_cons]
      by_cases h : pat.isPrefixOf (x :: xs) = true
      · rw [h, if_pos rfl]; simp
      · have h0 : pat.isPrefixOf (x :: xs) = false := by
          cases hb : pat.isPrefixOf (x :: xs)
          · rfl
          · exact absurd hb h
        rw [h0]
        simp only [Bool.false_eq_true, if_false]
        exact ih 0 (x :: cur)

theorem joinWith_single (sep a : List Char) : joinWith sep [a] = a := rfl

theorem joinWith_cons_of_ne (sep a : List Char) (L : List (List Char)) (h : L ≠ []) :
    joinWith sep (a :: L) = a ++ sep ++ joinWith sep L := by
  cases L with
  | nil => exact absurd rfl h
  | cons b rest => rfl

/-- Core correspondence: joining the fragments of the left-to-right
non-overlapping split with `rep` is exactly the left-to-right scanning
replacement.  `cur` is the (reversed) fragment accumulated so far. -/
theorem joinWith_splitAux (c : Char) (pt rep : List Char) :
    ∀ (N : Nat) (s : List Char), s.length ≤ N → ∀ cur : List Char,
      joinWith rep (splitAux (c :: pt) 0 cur s) =
        cur.reverse ++ replaceAux (c :: pt) rep 0 s := by
  intro N
  induction N with
  | zero =>
    intro s hs cur
    have hnil : s = [] := List.length_eq_zero.mp (Nat.le_zero.mp hs)
    subst hnil
    rw [splitAux_nil, joinWith_single, replaceAux_nil]
    simp
  | succ N ih =>
    intro s hs cur
    cases s with
    | nil =>
      rw [splitAux_nil, joinWith_single, replaceAux_nil]
      simp
    | cons x xs =>
      have hxs : xs.length ≤ N := Nat.le_of_succ_le_succ hs
      rw [splitAux_zero_cons, replaceAux_zero_cons]
      by_cases h : (c :: pt).isPrefixOf (x :: xs) = true
      · rw [h, if_pos rfl, if_pos rfl]
        have hskipS : splitAux (c :: pt) ((c :: pt).length - 1) [] xs =
            splitAux (c :: pt) 0 [] (xs.drop ((c :: pt).length - 1)) := splitAux_skip _ _ _ _
        have hskipR : replaceAux (c :: pt) rep ((c :: pt).length - 1) xs =
            replaceAux (c :: pt) rep 0 (xs.drop ((c :: pt).length - 1)) := replaceAux_skip _ _ _ _
        rw [hskipS, hskipR,
          joinWith_cons_of_ne rep cur.reverse _ (splitAux_ne_nil _ _ _ _),
          ih (xs.drop ((c :: pt).length - 1))
            (Nat.le_trans (by rw [List.length_drop]; exact Nat.sub_le _ _) hxs) []]
        simp [List.append_assoc]
      · have h0 : (c :: pt).isPrefixOf (x :: xs) = false := by
          cases hb : (c :: pt).isPrefixOf (x :: xs)
          · rfl
          · exact absurd hb h
        rw [h0]
        simp only [Bool.false_eq_true, if_false]
        rw [ih xs hxs (x :: cur)]
        simp [List.append_assoc]

/-! ### Token-level corollaries -/

/-- The tail of a token after its leading `#`. -/
def tokenTail (i : Int) : List Char := '$' :: ((toString i).toList ++ ['#'])

theorem token_cons (i : Int) : token i = '#' :: tokenTail i := rfl

theorem rustReplace_token (i : Int) (s rep : List Char) :
    rustReplace s (token i) rep = replaceAux (token i) rep 0 s := rfl

/-- One pair's action agrees with the spec-side split-and-join reading of
"replace every occurrence". -/
theorem splitSeq_def (pat s : List Char) : splitSeq pat s = splitAux pat 0 [] s := rfl

theorem rustReplace_token_eq_joinWith (i : Int) (s rep : List Char) :
    rustReplace s (token i) rep = joinWith rep (splitSeq (token i) s) := by
  rw [rustReplace_token, token_cons, splitSeq_def]
  have := joinWith_splitAux '#' (tokenTail i) rep s.length s Nat.le.refl []
  simp only [List.reverse_nil, List.nil_append] at this
  rw [this]

/-- A pair whose token does not occur in the buffer is a no-op. -/
theorem rustReplace_token_no_occur (i : Int) (s rep : List Char)
    (h : occursIn (token i) s = false) : rustReplace s (token i) rep = s := by
  rw [rustReplace_token, token_cons]
  rw [token_cons] at h
  exact replaceAux_not_occurs '#' (tokenTail i) rep s h

end Browsy

namespace Browsy

/-! ### Unfolding lemmas for the two substitution folds -/

theorem template_replace_nil (t : List Char) : template_replace t [] = t := rfl

theorem template_replace_cons (t : List Char) (pr : Int × List Char)
    (ps : List (Int × List Char)) :
    template_replace t (pr :: ps) =
      template_replace (rustReplace t (token pr.fst) pr.snd) ps := rfl

theorem substituteSpec_nil (t : List Char) : substituteSpec t [] = t := rfl

theorem substituteSpec_cons (t : List Char) (pr : Int × List Char)
    (ps : List (Int × List Char)) :
    substituteSpec t (pr :: ps) =
      substituteSpec (joinWith pr.snd (splitSeq (token pr.fst) t)) ps := rfl

/-! ### Decomposition of the rendered line -/

theorem LOG_TEMPLATE_decomp : LOG_TEMPLATE = token 1 ++ (" #$2#".toList) := by decide

theorem template_two (sT sM : List Char) :
    template_replace LOG_TEMPLATE [(1, sT), (2, sM)] =
      rustReplace (rustReplace LOG_TEMPLATE (token 1) sT) (token 2) sM := rfl

theorem step_one (sT : List Char) :
    rustReplace LOG_TEMPLATE (token 1) sT = sT ++ (" #$2#".toList) := by
  rw [rustReplace_token, LOG_TEMPLATE_decomp, token_cons, replaceAux_append_self,
    replaceAux_not_occurs '#' (tokenTail 1) sT (" #$2#".toList) (by decide)]

theorem render_decomp (pre mid sM : List Char) (i : Int) (hpre : '#' ∉ pre) :
    rustReplace ((pre ++ mid) ++ (" #$2#".toList)) (token i) sM =
      pre ++ replaceAux (token i) sM 0 (mid ++ (" #$2#".toList)) := by
  rw [rustReplace_token, token_cons, List.append_assoc,
    replaceAux_no_head '#' (tokenTail i) sM pre _ hpre]

theorem statement_title_decomp (t : List Char) :
    statement_styled_title t = stmtOpen ++ (p t ++ ansiReset) := rfl

theorem warn_title_decomp (t : List Char) :
    warn_styled_title t = warnOpen ++ (p t ++ ansiReset) := rfl

theorem success_title_decomp (t : List Char) :
    success_styled_title t = succOpen ++ (pad t [' '] 1 ++ ansiReset) := rfl

theorem fail_title_decomp (t : List Char) :
    fail_styled_title t = failOpen ++ (p t ++ ansiReset) := rfl

theorem statement_log (l : InfoLogger) :
    (statement l).log = template_replace LOG_TEMPLATE
      [(1, statement_styled_title l.tittle), (2, statement_styled_message l.message)] := rfl

theorem warn_log (l : InfoLogger) :
    (warn l).log = template_replace LOG_TEMPLATE
      [(1, warn_styled_title l.tittle), (2, warn_styled_message l.message)] := rfl

theorem success_log (l : InfoLogger) :
    (success l).log = template_replace LOG_TEMPLATE
      [(1, success_styled_title l.tittle), (2, success_styled_message l.message)] := rfl

theorem fail_log (l : InfoLogger) :
    (fail l).log = template_replace LOG_TEMPLATE
      [(1, fail_styled_title l.tittle), (2, fail_styled_message l.message)] := rfl

theorem statement_log_decomp (l : InfoLogger) : ∃ r, (statement l).log = stmtOpen ++ r := by
  refine ⟨replaceAux (token 2) (statement_styled_message l.message) 0
    ((p l.tittle ++ ansiReset) ++ (" #$2#".toList)), ?_⟩
  rw [statement_log, template_two, step_one, statement_title_decomp,
    render_decomp _ _ _ 2 (by decide)]

theorem warn_log_decomp (l : InfoLogger) : ∃ r, (warn l).log = warnOpen ++ r := by
  refine ⟨replaceAux (token 2) (warn_styled_message l.message) 0
    ((p l.tittle ++ ansiReset) ++ (" #$2#".toList)), ?_⟩
  rw [warn_log, template_two, step_one, warn_title_decomp,
    render_decomp _ _ _ 2 (by decide)]

theorem success_log_decomp (l : InfoLogger) : ∃ r, (success l).log = succOpen ++ r := by
  refine ⟨replaceAux (token 2) (success_styled_message l.message) 0
    ((pad l.tittle [' '] 1 ++ ansiReset) ++ (" #$2#".toList)), ?_⟩
  rw [success_log, template_two, step_one, success_title_decomp,
    render_decomp _ _ _ 2 (by decide)]

theorem fail_log_decomp (l : InfoLogger) : ∃ r, (fail l).log = failOpen ++ r := by
  refine ⟨replaceAux (token 2) (fail_styled_message l.message) 0
    ((p l.tittle ++ ansiReset) ++ (" #$2#".toList)), ?_⟩
  rw [fail_log, template_two, step_one, fail_title_decomp,
    render_decomp _ _ _ 2 (by decide)]

/-- Two lists with a common index below both decomposition points holding
different characters are different, whatever follows. -/
theorem append_ne_of_ne_at (p1 p2 r1 r2 : List Char) (i : Nat) (h1 : i < p1.length)
    (h2 : i < p2.length) (hne : p1.get ⟨i, h1⟩ ≠ p2.get ⟨i, h2⟩) : p1 ++ r1 ≠ p2 ++ r2 := by
  intro he
  apply hne
  have e1 : (p1 ++ r1)[i]? = p1[i]? := List.getElem?_append_left h1
  have e2 : (p2 ++ r2)[i]? = p2[i]? := List.getElem?_append_left h2
  rw [he] at e1
  have e3 := e1.symm.trans e2
  rw [List.getElem?_eq_getElem h1, List.getElem?_eq_getElem h2] at e3
  have e4 := Option.some.inj e3
  simpa [List.get_eq_getElem] using e4

end Browsy

namespace Browsy

/-! ### Claim theorems -/

/-- Claim C1: `template_replace` equals the left fold that starts from the
original template and, pair by pair in list order, replaces every
occurrence of the pair's token in the current buffer with the value
(`substituteSpec`, the independent split-and-join reading of "replace
every occurrence"); in particular a repeated token index is replaced
uniformly by the one pair targeting it, and a later pair aimed at an
already consumed index finds nothing to replace. -/
theorem claim_C1_substitute_is_sequential_fold :
    (∀ (t : List Char) (ps : List (Int × List Char)),
        template_replace t ps = substituteSpec t ps) ∧
    template_replace ("#$1# #$1#".toList) [(1, "v".toList)] = "v v".toList ∧
    template_replace ("#$1#".toList) [(1, "a".toList), (1, "b".toList)] = "a".toList := by
  refine ⟨?_, by decide, by decide⟩
  intro t ps
  induction ps generalizing t with
  | nil => rfl
  | cons pr rest ih =>
    rw [template_replace_cons, substituteSpec_cons, rustReplace_token_eq_joinWith, ih]

/-- Claim C2: rendering a freshly created record with `statement` stores
into the log exactly the template-engine output over the fixed two-token
single-space template with the statement-styled title at index 1 and the
statement-styled message at index 2 (and likewise each of the other three
severity renders stores the template-engine output over its stylings). -/
theorem claim_C2_statement_render_is_template_output :
    LOG_TEMPLATE = ("#$1# #$2#".toList) ∧
    (∀ t m : List Char, clone_log (statement (new t m)) =
      template_replace LOG_TEMPLATE
        [(1, statement_styled_title t), (2, statement_styled_message m)]) ∧
    (∀ l : InfoLogger, (statement l).log = template_replace LOG_TEMPLATE
        [(1, statement_styled_title l.tittle), (2, statement_styled_message l.message)]) ∧
    (∀ l : InfoLogger, (warn l).log = template_replace LOG_TEMPLATE
        [(1, warn_styled_title l.tittle), (2, warn_styled_message l.message)]) ∧
    (∀ l : InfoLogger, (success l).log = template_replace LOG_TEMPLATE
        [(1, success_styled_title l.tittle), (2, success_styled_message l.message)]) ∧
    (∀ l : InfoLogger, (fail l).log = template_replace LOG_TEMPLATE
        [(1, fail_styled_title l.tittle), (2, fail_styled_message l.message)]) :=
  ⟨rfl, fun _ _ => rfl, fun _ => rfl, fun _ => rfl, fun _ => rfl, fun _ => rfl⟩

/-- Claim C3, counterexample to its second half as stated: in the
template `#$2#$1#` the untargeted token `#$2#` occurs, the only pair
targets index 1, yet the output `#$2x` no longer contains `#$2#`
verbatim — replacing the overlapping occurrence of `#$1#` destroyed it. -/
theorem claim_C3_counterexample :
    occursIn ("#$2#".toList) ("#$2#$1#".toList) = true ∧
    template_replace ("#$2#$1#".toList) [(1, "x".toList)] = "#$2x".toList ∧
    occursIn ("#$2#".toList) (template_replace ("#$2#$1#".toList) [(1, "x".toList)]) = false := by
  refine ⟨by decide, by decide, by decide⟩

/-- Claim C3 (amended): a pair whose index token does not occur in the
(possibly already-mutated) buffer leaves the buffer unchanged; and a
token that no pair targets appears verbatim in the output provided no
pair's token occurs anywhere in the buffer — in that case the whole
template passes through unchanged.  (Unconditionally preserving
untargeted tokens fails when a targeted occurrence overlaps them, see the
counterexample.) -/
theorem claim_C3_noop_pairs_and_verbatim_passthrough :
    (∀ (buf : List Char) (i : Int) (v : List Char),
        occursIn (token i) buf = false → rustReplace buf (token i) v = buf) ∧
    (∀ (t : List Char) (ps : List (Int × List Char)),
        (∀ pr ∈ ps, occursIn (token pr.fst) t = false) → template_replace t ps = t) := by
  constructor
  · intro buf i v h
    exact rustReplace_token_no_occur i buf v h
  · intro t ps
    induction ps with
    | nil => intro _; rfl
    | cons pr rest ih =>
      intro h
      rw [template_replace_cons,
        rustReplace_token_no_occur pr.fst t pr.snd (h pr (by simp))]
      exact ih fun q hq => h q (by simp [hq])

/-- Witness for the amended C3 at concrete inputs: a pair whose token is
absent is a no-op, and a pair list with no occurring token passes the
template through. -/
theorem claim_C3_witness :
    rustReplace ("ab".toList) (token 1) ("z".toList) = "ab".toList ∧
    template_replace ("ab".toList) [(1, "z".toList), (2, "w".toList)] = "ab".toList := by
  constructor
  · exact claim_C3_noop_pairs_and_verbatim_passthrough.1 ("ab".toList) 1 ("z".toList) (by decide)
  · exact claim_C3_noop_pairs_and_verbatim_passthrough.2 ("ab".toList)
      [(1, "z".toList), (2, "w".toList)] (by decide)

/-- Claim C4: `restate_log` overwrites exactly the title and the message,
leaves the log field untouched (in particular a previous render's output
survives a restate), and the resulting record has no other change. -/
theorem claim_C4_restate_overwrites_title_message_only :
    (∀ (l : InfoLogger) (t m : List Char),
        restate_log l t m = { tittle := t, message := m, log := l.log }) ∧
    (∀ (l : InfoLogger) (t m : List Char),
        (restate_log (statement l) t m).log = (statement l).log) :=
  ⟨fun _ _ _ => rfl, fun _ _ _ => rfl⟩

/-- Claim C5: a default-created record has empty title, message and log,
so reading the rendered line before any render yields the empty string;
`new` likewise initialises the log to the empty string. -/
theorem claim_C5_fresh_records_are_unrendered :
    new_default = { tittle := [], message := [], log := [] } ∧
    clone_log new_default = [] ∧
    (∀ t m : List Char, clone_log (new t m) = []) :=
  ⟨rfl, rfl, fun _ _ => rfl⟩

/-- Claim C6: rendering twice in a row with the same severity (no restate
in between) leaves the log at the value the first render produced, for
each of the four severities. -/
theorem claim_C6_rerender_is_idempotent :
    ∀ l : InfoLogger,
      clone_log (statement (statement l)) = clone_log (statement l) ∧
      clone_log (warn (warn l)) = clone_log (warn l) ∧
      clone_log (success (success l)) = clone_log (success l) ∧
      clone_log (fail (fail l)) = clone_log (fail l) :=
  fun _ => ⟨rfl, rfl, rfl, rfl⟩

/-- Claim C7: for one and the same record (hence the same title and
message), the four severity renders produce four pairwise distinct
rendered strings — their ANSI escape headers already differ. -/
theorem claim_C7_four_severities_pairwise_distinct :
    ∀ l : InfoLogger,
      clone_log (statement l) ≠ clone_log (warn l) ∧
      clone_log (statement l) ≠ clone_log (success l) ∧
      clone_log (statement l) ≠ clone_log (fail l) ∧
      clone_log (warn l) ≠ clone_log (success l) ∧
      clone_log (warn l) ≠ clone_log (fail l) ∧
      clone_log (success l) ≠ clone_log (fail l) := by
  intro l
  obtain ⟨r1, h1⟩ := statement_log_decomp l
  obtain ⟨r2, h2⟩ := warn_log_decomp l
  obtain ⟨r3, h3⟩ := success_log_decomp l
  obtain ⟨r4, h4⟩ := fail_log_decomp l
  refine ⟨?_, ?_, ?_, ?_, ?_, ?_⟩
  · show (statement l).log ≠ (warn l).log
    rw [h1, h2]
    exact append_ne_of_ne_at _ _ _ _ 4 (by decide) (by decide) (by decide)
  · show (statement l).log ≠ (success l).log
    rw [h1, h3]
    exact append_ne_of_ne_at _ _ _ _ 5 (by decide) (by decide) (by decide)
  · show (statement l).log ≠ (fail l).log
    rw [h1, h4]
    exact append_ne_of_ne_at _ _ _ _ 4 (by decide) (by decide) (by decide)
  · show (warn l).log ≠ (success l).log
    rw [h2, h3]
    exact append_ne_of_ne_at _ _ _ _ 4 (by decide) (by decide) (by decide)
  · show (warn l).log ≠ (fail l).log
    rw [h2, h4]
    exact append_ne_of_ne_at _ _ _ _ 7 (by decide) (by decide) (by decide)
  · show (success l).log ≠ (fail l).log
    rw [h3, h4]
    exact append_ne_of_ne_at _ _ _ _ 4 (by decide) (by decide) (by decide)

/-- Claim C8: two runs on identical inputs agree — `template_replace` is
a function of its arguments, and two records agreeing on title and
message (whatever their stored logs) get identical styled strings and
identical rendered output from each severity. -/
theorem claim_C8_two_run_determinism :
    (∀ (t₁ t₂ : List Char) (ps₁ ps₂ : List (Int × List Char)),
        t₁ = t₂ → ps₁ = ps₂ → template_replace t₁ ps₁ = template_replace t₂ ps₂) ∧
    (∀ l₁ l₂ : InfoLogger, l₁.tittle = l₂.tittle → l₁.message = l₂.message →
      statement_styled_title l₁.tittle = statement_styled_title l₂.tittle ∧
      statement_styled_message l₁.message = statement_styled_message l₂.message ∧
      warn_styled_title l₁.tittle = warn_styled_title l₂.tittle ∧
      warn_styled_message l₁.message = warn_styled_message l₂.message ∧
      success_styled_title l₁.tittle = success_styled_title l₂.tittle ∧
      success_styled_message l₁.message = success_styled_message l₂.message ∧
      fail_styled_title l₁.tittle = fail_styled_title l₂.tittle ∧
      fail_styled_message l₁.message = fail_styled_message l₂.message ∧
      clone_log (statement l₁) = clone_log (statement l₂) ∧
      clone_log (warn l₁) = clone_log (warn l₂) ∧
      clone_log (success l₁) = clone_log (success l₂) ∧
      clone_log (fail l₁) = clone_log (fail l₂)) := by
  constructor
  · intro t₁ t₂ ps₁ ps₂ h1 h2
    rw [h1, h2]
  · intro l₁ l₂ ht hm
    refine ⟨by rw [ht], by rw [hm], by rw [ht], by rw [hm], by rw [ht], by rw [hm],
      by rw [ht], by rw [hm], ?_, ?_, ?_, ?_⟩
    · show (statement l₁).log = (statement l₂).log
      rw [statement_log, statement_log, ht, hm]
    · show (warn l₁).log = (warn l₂).log
      rw [warn_log, warn_log, ht, hm]
    · show (success l₁).log = (success l₂).log
      rw [success_log, success_log, ht, hm]
    · show (fail l₁).log = (fail l₂).log
      rw [fail_log, fail_log, ht, hm]

/-- Witness for C8 at concrete records with equal title and message but
different stored logs: the statement renders agree. -/
theorem claim_C8_witness :
    clone_log (statement (new ("a".toList) ("b".toList))) =
      clone_log (statement (restate_log (warn new_default) ("a".toList) ("b".toList))) := by
  have h := claim_C8_two_run_determinism.2 (new ("a".toList) ("b".toList))
    (restate_log (warn new_default) ("a".toList) ("b".toList)) rfl rfl
  exact h.2.2.2.2.2.2.2.2.1

/-- Claim C9: `log` (emit) writes the stored rendered line followed by
the line terminator to standard output (modelled as the second component
of the result), writes just an empty line when nothing was rendered, and
returns the record itself with every field unchanged. -/
theorem claim_C9_emit_writes_line_and_preserves_record :
    ∀ l : InfoLogger,
      (log l).1 = l ∧
      (log l).2 = clone_log l ++ ['\n'] ∧
      (clone_log l = [] → (log l).2 = ['\n']) := by
  intro l
  refine ⟨rfl, rfl, ?_⟩
  intro h
  show l.log ++ ['\n'] = ['\n']
  rw [show l.log = ([] : List Char) from h]
  rfl

/-- Witness for C9 on the default record, whose log is empty. -/
theorem claim_C9_witness :
    (log new_default).1 = new_default ∧ (log new_default).2 = ['\n'] := by
  have h := claim_C9_emit_writes_line_and_preserves_record new_default
  exact ⟨h.1, h.2.2 rfl⟩

/-- Claim C10: a value substituted by an earlier pair can contain a later
pair's token, which that later pair then replaces inside the substituted
text: on template `#$1#` with pairs `[(1, "#$2#"), (2, "X")]` the result
is `X`, not `#$2#`; and a statement render whose title is the literal
text `#$2#` yields a line in which the styled message appears inside the
styled title's own escape wrapper (between its header and its reset) as
well as at the message position. -/
theorem claim_C10_earlier_value_feeds_later_pair :
    template_replace ("#$1#".toList) [(1, "#$2#".toList), (2, "X".toList)] = "X".toList ∧
    clone_log (statement (new ("#$2#".toList) ("M".toList))) =
      stmtOpen ++ ((" ".toList) ++ statement_styled_message ("M".toList) ++ (" ".toList) ++
        ansiReset ++ (" ".toList) ++ statement_styled_message ("M".toList)) := by
  refine ⟨by decide, by decide⟩

end Browsy
